import Mathlib

/-!
Shallow embedding of the `transactions-processor` payment engine
(`src/payment_engine/{account.rs, transaction.rs, mod.rs}`).

Monetary values (`rust_decimal::Decimal`) are modelled as exact rationals `ℚ`;
the engine's two `HashMap`s are modelled as association lists with
lookup/insert (replace-or-append) semantics.  Rust's
`clients.entry(c).or_insert_with(..)` runs before any validation, so
`process_transaction` is embedded as a function returning the post-state
together with an optional error: the post-state can differ from the pre-state
even when an error is returned (a fresh zero account may have been created).
-/

namespace TxProc

/-- Association-list lookup, modelling `HashMap::get`. -/
def lookupA {α : Type} (m : List (Nat × α)) (k : Nat) : Option α :=
  match m with
  | [] => none
  | (k', v) :: rest => if k' = k then some v else lookupA rest k

/-- Association-list insert (replace the binding if the key is present,
append otherwise), modelling `HashMap::insert`. -/
def insertA {α : Type} (m : List (Nat × α)) (k : Nat) (v : α) : List (Nat × α) :=
  match m with
  | [] => [(k, v)]
  | (k', v') :: rest => if k' = k then (k, v) :: rest else (k', v') :: insertA rest k v

/-- `AccountStatus` from `account.rs`. -/
@[ext] structure AccountStatus where
  client : Nat
  available : ℚ
  held : ℚ
  total : ℚ
  locked : Bool
deriving DecidableEq

/-- `AccountStatus::new`: all balances zero, unlocked. -/
def AccountStatus.new (client_id : Nat) : AccountStatus :=
  { client := client_id, available := 0, held := 0, total := 0, locked := false }

/-- `TransactionType` from `transaction.rs`. -/
inductive TransactionType where
  | Deposit (amount : ℚ)
  | Withdrawal (amount : ℚ)
  | Dispute
  | Resolve
  | Chargeback
deriving DecidableEq

/-- `Transaction` from `transaction.rs`. -/
structure Transaction where
  client : Nat
  id : Nat
  is_disputed : Bool
  type : TransactionType
deriving DecidableEq

/-- `Transaction::new`: `is_disputed` starts out `false`. -/
def Transaction.new (client : Nat) (transaction_id : Nat) (type : TransactionType) :
    Transaction :=
  { client := client, id := transaction_id, is_disputed := false, type := type }

/-- `PaymentEngineError` from `mod.rs`. -/
inductive PaymentEngineError where
  | InsufficientFunds
  | AccountLocked (client : Nat)
  | InvalidTransactionType (msg : String)
  | InvalidAmount (amount : ℚ) (msg : String)
  | TransactionNotFound (id : Nat)
  | TransactionAlreadyDisputed (id : Nat)
  | NotDisputed (id : Nat)
  | DisputeForDifferentClient
deriving DecidableEq

/-- `AccountStatus::deposit`. -/
def AccountStatus.deposit (a : AccountStatus) (amount : ℚ) :
    Except PaymentEngineError AccountStatus :=
  if a.locked then .error (.AccountLocked a.client)
  else .ok { a with available := a.available + amount, total := a.total + amount }

/-- `AccountStatus::withdraw`. -/
def AccountStatus.withdraw (a : AccountStatus) (amount : ℚ) :
    Except PaymentEngineError AccountStatus :=
  if a.locked then .error (.AccountLocked a.client)
  else if a.available < amount then .error .InsufficientFunds
  else .ok { a with available := a.available - amount, total := a.total - amount }

/-- `AccountStatus::hold_funds` (unconditional, always `Ok`). -/
def AccountStatus.hold_funds (a : AccountStatus) (amount : ℚ) :
    Except PaymentEngineError AccountStatus :=
  .ok { a with available := a.available - amount, held := a.held + amount }

/-- `AccountStatus::release_funds`. -/
def AccountStatus.release_funds (a : AccountStatus) (amount : ℚ) : AccountStatus :=
  { a with held := a.held - amount, available := a.available + amount }

/-- `AccountStatus::chargeback`. -/
def AccountStatus.chargeback (a : AccountStatus) (amount : ℚ) : AccountStatus :=
  { a with held := a.held - amount, total := a.total - amount, locked := true }

/-- `PaymentEngine` from `mod.rs`: client accounts and the deposit/withdrawal
transaction history. -/
structure PaymentEngine where
  clients : List (Nat × AccountStatus)
  transactions : List (Nat × Transaction)
deriving DecidableEq

/-- `PaymentEngine::new` (via `Default`). -/
def PaymentEngine.new : PaymentEngine := { clients := [], transactions := [] }

/-- `clients.entry(c).or_insert_with(|| AccountStatus::new(c))`: the map after
the entry call (unchanged when the key is present, a fresh account otherwise). -/
def orCreate (m : List (Nat × AccountStatus)) (c : Nat) : List (Nat × AccountStatus) :=
  match lookupA m c with
  | some _ => m
  | none => insertA m c (AccountStatus.new c)

/-- The account the entry call hands to the rest of `process_transaction`. -/
def getClient (m : List (Nat × AccountStatus)) (c : Nat) : AccountStatus :=
  (lookupA m c).getD (AccountStatus.new c)

/-- The signed "amount at stake" computed inside the dispute-class arm of
`process_transaction`: the stored entry's amount for a `Deposit`, its negation
for a `Withdrawal`, and an error for anything else. -/
def signedDisputeAmount (t : TransactionType) : Option ℚ :=
  match t with
  | .Deposit amount => some amount
  | .Withdrawal amount => some (-amount)
  | _ => none

/-- `PaymentEngine::process_transaction`.  Returns the post-state paired with
`none` on `Ok(())` and `some err` on `Err(err)`; the post-state reflects every
mutation the Rust code performs before returning, including the lazy creation
of the client account by the `entry` call on error paths. -/
def PaymentEngine.process_transaction (e : PaymentEngine) (t : Transaction) :
    PaymentEngine × Option PaymentEngineError :=
  let client := getClient e.clients t.client
  let e1 : PaymentEngine := { e with clients := orCreate e.clients t.client }
  match t.type with
  | .Deposit amount =>
      if amount < 0 then
        (e1, some (.InvalidAmount amount "deposit amount cannot be negative"))
      else
        match client.deposit amount with
        | .error err => (e1, some err)
        | .ok client2 =>
            ({ clients := insertA e1.clients t.client client2,
               transactions := insertA e1.transactions t.id t }, none)
  | .Withdrawal amount =>
      if amount < 0 then
        (e1, some (.InvalidAmount amount "withdrawal amount cannot be negative"))
      else
        match client.withdraw amount with
        | .error err => (e1, some err)
        | .ok client2 =>
            ({ clients := insertA e1.clients t.client client2,
               transactions := insertA e1.transactions t.id t }, none)
  | .Dispute | .Resolve | .Chargeback =>
      match lookupA e1.transactions t.id with
      | none => (e1, some (.TransactionNotFound t.id))
      | some original =>
          if original.client ≠ t.client then
            (e1, some .DisputeForDifferentClient)
          else
            match signedDisputeAmount original.type with
            | none =>
                (e1, some (.InvalidTransactionType
                  "dispute can only be applied to deposit or withdrawal"))
            | some amount =>
                match t.type with
                | .Dispute =>
                    if original.is_disputed then
                      (e1, some (.TransactionAlreadyDisputed t.id))
                    else
                      let e2 : PaymentEngine := { e1 with
                        transactions := insertA e1.transactions t.id
                          { original with is_disputed := true } }
                      match client.hold_funds amount with
                      | .error err => (e2, some err)
                      | .ok client2 =>
                          ({ e2 with clients := insertA e2.clients t.client client2 }, none)
                | .Resolve =>
                    if !original.is_disputed then
                      (e1, some (.NotDisputed t.id))
                    else
                      ({ clients := insertA e1.clients t.client
                           (client.release_funds amount),
                         transactions := insertA e1.transactions t.id
                           { original with is_disputed := false } }, none)
                | .Chargeback =>
                    if !original.is_disputed then
                      (e1, some (.NotDisputed t.id))
                    else
                      ({ clients := insertA e1.clients t.client
                           (client.chargeback amount),
                         transactions := insertA e1.transactions t.id
                           { original with is_disputed := false } }, none)
                | .Deposit _ | .Withdrawal _ =>
                    (e1, some (.InvalidTransactionType "unreachable"))

/-- `PaymentEngine::get_accounts_statuses`: the snapshot of all accounts. -/
def PaymentEngine.get_accounts_statuses (e : PaymentEngine) : List AccountStatus :=
  e.clients.map Prod.snd

/-- The ingestion loop of `main.rs`: feed transactions one at a time; an error
aborts only that transaction (it is logged) and processing continues. -/
def PaymentEngine.process_all (e : PaymentEngine) (ts : List Transaction) : PaymentEngine :=
  match ts with
  | [] => e
  | t :: rest => (e.process_transaction t).1.process_all rest

/-! ### Concrete states used to instantiate the quantified theorems -/

/-- A client-1 account holding 50 available, nothing held, unlocked. -/
def acct50 : AccountStatus :=
  { client := 1, available := 50, held := 0, total := 50, locked := false }

/-- An engine holding `acct50` and its originating deposit in history. -/
def engine50 : PaymentEngine :=
  { clients := [(1, acct50)],
    transactions := [(1, { client := 1, id := 1, is_disputed := false,
                           type := .Deposit 50 })] }

/-- A client-1 account that has been emptied and locked by a chargeback. -/
def lockedAcct : AccountStatus :=
  { client := 1, available := 0, held := 0, total := 0, locked := true }

/-- An engine holding only the locked account. -/
def lockedEngine : PaymentEngine :=
  { clients := [(1, lockedAcct)], transactions := [] }

/-- State after Deposit(q, id=1) for client 1 on a fresh engine. -/
def cbTrace1 (q : ℚ) : PaymentEngine × Option PaymentEngineError :=
  PaymentEngine.new.process_transaction (Transaction.new 1 1 (.Deposit q))

/-- ... then Dispute(id=1). -/
def cbTrace2 (q : ℚ) : PaymentEngine × Option PaymentEngineError :=
  (cbTrace1 q).1.process_transaction (Transaction.new 1 1 .Dispute)

/-- ... then Chargeback(id=1): the account is emptied and locked. -/
def cbTrace3 (q : ℚ) : PaymentEngine × Option PaymentEngineError :=
  (cbTrace2 q).1.process_transaction (Transaction.new 1 1 .Chargeback)

/-- ... then a second Dispute(id=1), applied to the locked account. -/
def cbTrace4 (q : ℚ) : PaymentEngine × Option PaymentEngineError :=
  (cbTrace3 q).1.process_transaction (Transaction.new 1 1 .Dispute)

/-- ... then a second Chargeback(id=1), also applied to the locked account. -/
def cbTrace5 (q : ℚ) : PaymentEngine × Option PaymentEngineError :=
  (cbTrace4 q).1.process_transaction (Transaction.new 1 1 .Chargeback)

/-- Sanity check: Deposit(100) on a fresh engine succeeds. -/
theorem deposit_on_fresh_engine_ok :
    (PaymentEngine.new.process_transaction
      (Transaction.new 1 1 (.Deposit 100))).2 = none := by
  norm_num [PaymentEngine.process_transaction, PaymentEngine.new, Transaction.new,
    getClient, orCreate, lookupA, insertA, AccountStatus.new, AccountStatus.deposit]

/-- Sanity check: Deposit(100) then Withdrawal(40) leaves available=60,
held=0, total=60, unlocked. -/
theorem deposit_then_withdrawal_balances :
    lookupA ((PaymentEngine.new.process_all
      [Transaction.new 1 1 (.Deposit 100),
       Transaction.new 1 2 (.Withdrawal 40)]).clients) 1 =
    some { client := 1, available := 60, held := 0, total := 60, locked := false } := by
  norm_num [PaymentEngine.process_all, PaymentEngine.process_transaction,
    PaymentEngine.new, Transaction.new, getClient, orCreate, lookupA, insertA,
    AccountStatus.new, AccountStatus.deposit, AccountStatus.withdraw]

/-! ### Association-map lemmas -/

theorem lookupA_insertA_self {α : Type} (m : List (Nat × α)) (k : Nat) (v : α) :
    lookupA (insertA m k v) k = some v := by
  induction m with
  | nil => simp [insertA, lookupA]
  | cons p rest ih =>
      obtain ⟨k', v'⟩ := p
      by_cases hk : k' = k
      · subst hk; simp [insertA, lookupA]
      · simp [insertA, lookupA, hk, ih]

theorem lookupA_insertA_ne {α : Type} (m : List (Nat × α)) (k c : Nat) (v : α)
    (h : c ≠ k) : lookupA (insertA m k v) c = lookupA m c := by
  induction m with
  | nil => simp [insertA, lookupA, Ne.symm h]
  | cons p rest ih =>
      obtain ⟨k', v'⟩ := p
      by_cases hk : k' = k
      · subst hk
        simp [insertA, lookupA, Ne.symm h]
      · simp [insertA, lookupA, hk, ih]

theorem lookupA_insertA_cases {α : Type} {m : List (Nat × α)} {k c : Nat} {v y : α}
    (h : lookupA (insertA m k v) c = some y) :
    (c = k ∧ y = v) ∨ lookupA m c = some y := by
  by_cases hc : c = k
  · subst hc
    rw [lookupA_insertA_self] at h
    exact Or.inl ⟨rfl, (Option.some_injective _ h).symm⟩
  · rw [lookupA_insertA_ne m k c v hc] at h
    exact Or.inr h

theorem lookupA_orCreate_preserved {m : List (Nat × AccountStatus)} {c k : Nat}
    {a : AccountStatus} (h : lookupA m c = some a) :
    lookupA (orCreate m k) c = some a := by
  unfold orCreate
  cases hk : lookupA m k with
  | some _ => simpa using h
  | none =>
      by_cases hc : c = k
      · subst hc; rw [h] at hk; exact absurd hk (by simp)
      · rw [lookupA_insertA_ne m k c _ hc]; exact h

theorem lookupA_orCreate_cases {m : List (Nat × AccountStatus)} {k c : Nat}
    {y : AccountStatus} (h : lookupA (orCreate m k) c = some y) :
    lookupA m c = some y ∨ (c = k ∧ y = AccountStatus.new k) := by
  unfold orCreate at h
  cases hk : lookupA m k with
  | some _ => rw [hk] at h; exact Or.inl h
  | none =>
      rw [hk] at h
      rcases lookupA_insertA_cases h with ⟨rfl, rfl⟩ | h'
      · exact Or.inr ⟨rfl, rfl⟩
      · exact Or.inl h'

theorem lookupA_orCreate_self (m : List (Nat × AccountStatus)) (c : Nat) :
    lookupA (orCreate m c) c = some (getClient m c) := by
  unfold orCreate getClient
  cases hk : lookupA m c with
  | some _ => simpa using hk
  | none => simpa using lookupA_insertA_self m c (AccountStatus.new c)

/-! ### Balance-invariant preservation by the account operations -/

theorem AccountStatus.new_balanced (c : Nat) :
    (AccountStatus.new c).total = (AccountStatus.new c).available + (AccountStatus.new c).held := by
  simp [AccountStatus.new]

theorem deposit_balanced {a b : AccountStatus} {amt : ℚ}
    (hb : a.total = a.available + a.held) (h : a.deposit amt = .ok b) :
    b.total = b.available + b.held := by
  unfold AccountStatus.deposit at h
  split at h
  · exact absurd h (by simp)
  · injection h with h2
    rw [← h2]
    simp only
    rw [hb]; ring

theorem withdraw_balanced {a b : AccountStatus} {amt : ℚ}
    (hb : a.total = a.available + a.held) (h : a.withdraw amt = .ok b) :
    b.total = b.available + b.held := by
  unfold AccountStatus.withdraw at h
  split at h
  · exact absurd h (by simp)
  · split at h
    · exact absurd h (by simp)
    · injection h with h2
      rw [← h2]
      simp only
      rw [hb]; ring

theorem hold_funds_balanced {a b : AccountStatus} {amt : ℚ}
    (hb : a.total = a.available + a.held) (h : a.hold_funds amt = .ok b) :
    b.total = b.available + b.held := by
  unfold AccountStatus.hold_funds at h
  injection h with h2
  rw [← h2]
  simp only
  rw [hb]; ring

theorem release_funds_balanced {a : AccountStatus} {amt : ℚ}
    (hb : a.total = a.available + a.held) :
    (a.release_funds amt).total =
      (a.release_funds amt).available + (a.release_funds amt).held := by
  unfold AccountStatus.release_funds
  simp only
  rw [hb]; ring

theorem chargeback_balanced {a : AccountStatus} {amt : ℚ}
    (hb : a.total = a.available + a.held) :
    (a.chargeback amt).total =
      (a.chargeback amt).available + (a.chargeback amt).held := by
  unfold AccountStatus.chargeback
  simp only
  rw [hb]; ring

theorem getClient_balanced {e : PaymentEngine} {c : Nat}
    (h : ∀ c a, lookupA e.clients c = some a → a.total = a.available + a.held) :
    (getClient e.clients c).total =
      (getClient e.clients c).available + (getClient e.clients c).held := by
  unfold getClient
  cases hl : lookupA e.clients c with
  | none => simpa using AccountStatus.new_balanced c
  | some x => simpa using h _ _ hl

/-- C1: for every account in the ledger, after every call to
`process_transaction` (whether it returns `Ok` or an error), the account's
`total` equals `available + held` exactly, provided every account satisfied
that equation before the call. -/
theorem process_transaction_preserves_balance_invariant
    (e : PaymentEngine) (t : Transaction)
    (h : ∀ c a, lookupA e.clients c = some a → a.total = a.available + a.held) :
    ∀ c a, lookupA (e.process_transaction t).1.clients c = some a →
      a.total = a.available + a.held := by
  have h1 : ∀ c a, lookupA (orCreate e.clients t.client) c = some a →
      a.total = a.available + a.held := by
    intro c a hl
    rcases lookupA_orCreate_cases hl with h' | ⟨_, rfl⟩
    · exact h _ _ h'
    · exact AccountStatus.new_balanced _
  have hg := getClient_balanced (e := e) (c := t.client) h
  intro c a ha
  obtain ⟨tc, tid, td, tt⟩ := t
  cases tt with
  | Deposit amt =>
      simp only [PaymentEngine.process_transaction] at ha
      split at ha
      · exact h1 _ _ ha
      · split at ha
        · exact h1 _ _ ha
        · rename_i client2 heq
          rcases lookupA_insertA_cases ha with ⟨_, rfl⟩ | h'
          · exact deposit_balanced hg heq
          · exact h1 _ _ h'
  | Withdrawal amt =>
      simp only [PaymentEngine.process_transaction] at ha
      split at ha
      · exact h1 _ _ ha
      · split at ha
        · exact h1 _ _ ha
        · rename_i client2 heq
          rcases lookupA_insertA_cases ha with ⟨_, rfl⟩ | h'
          · exact withdraw_balanced hg heq
          · exact h1 _ _ h'
  | Dispute =>
      simp only [PaymentEngine.process_transaction] at ha
      split at ha
      · exact h1 _ _ ha
      · split at ha
        · exact h1 _ _ ha
        · split at ha
          · exact h1 _ _ ha
          · split at ha
            · exact h1 _ _ ha
            · simp only [AccountStatus.hold_funds] at ha
              rcases lookupA_insertA_cases ha with ⟨_, rfl⟩ | h'
              · simp only
                rw [hg]; ring
              · exact h1 _ _ h'
  | Resolve =>
      simp only [PaymentEngine.process_transaction] at ha
      split at ha
      · exact h1 _ _ ha
      · split at ha
        · exact h1 _ _ ha
        · split at ha
          · exact h1 _ _ ha
          · split at ha
            · exact h1 _ _ ha
            · rcases lookupA_insertA_cases ha with ⟨_, rfl⟩ | h'
              · exact release_funds_balanced hg
              · exact h1 _ _ h'
  | Chargeback =>
      simp only [PaymentEngine.process_transaction] at ha
      split at ha
      · exact h1 _ _ ha
      · split at ha
        · exact h1 _ _ ha
        · split at ha
          · exact h1 _ _ ha
          · split at ha
            · exact h1 _ _ ha
            · rcases lookupA_insertA_cases ha with ⟨_, rfl⟩ | h'
              · exact chargeback_balanced hg
              · exact h1 _ _ h'

/-- Shape of the post-state clients map: on an error the map is exactly the
pre-state map after the lazy `entry` creation; on success it is that map with
the (possibly updated) account written back at the transaction's client key. -/
theorem process_transaction_shape (e : PaymentEngine) (t : Transaction) :
    ((e.process_transaction t).1.clients = orCreate e.clients t.client ∧
      (e.process_transaction t).2 ≠ none) ∨
    (∃ v, (e.process_transaction t).1.clients =
        insertA (orCreate e.clients t.client) t.client v ∧
      (e.process_transaction t).2 = none) := by
  obtain ⟨tc, tid, td, tt⟩ := t
  cases tt <;>
    simp only [PaymentEngine.process_transaction, AccountStatus.hold_funds] <;>
    repeat' split
  all_goals first
    | exact Or.inl ⟨rfl, by simp⟩
    | exact Or.inr ⟨_, rfl, rfl⟩

/-- On an error return, every account present before the call is still present
with identical state after the call. -/
theorem process_transaction_error_frame
    (e : PaymentEngine) (t : Transaction) (err : PaymentEngineError)
    (h : (e.process_transaction t).2 = some err) :
    ∀ c a, lookupA e.clients c = some a →
      lookupA (e.process_transaction t).1.clients c = some a := by
  rcases process_transaction_shape e t with ⟨hc, _⟩ | ⟨v, _, h2⟩
  · intro c a hl
    rw [hc]
    exact lookupA_orCreate_preserved hl
  · rw [h] at h2
    exact absurd h2 (by simp)

/-! ### Exact outcomes of the dispute-class arm of `process_transaction` -/

theorem disputeClass_not_found (e : PaymentEngine) (tc tid : Nat) (td : Bool)
    (tt : TransactionType)
    (ht : tt = .Dispute ∨ tt = .Resolve ∨ tt = .Chargeback)
    (hl : lookupA e.transactions tid = none) :
    e.process_transaction ⟨tc, tid, td, tt⟩ =
      ({ e with clients := orCreate e.clients tc },
        some (.TransactionNotFound tid)) := by
  rcases ht with rfl | rfl | rfl <;>
    simp only [PaymentEngine.process_transaction, hl]

theorem disputeClass_different_client (e : PaymentEngine) (tc tid : Nat) (td : Bool)
    (tt : TransactionType) (tr : Transaction)
    (ht : tt = .Dispute ∨ tt = .Resolve ∨ tt = .Chargeback)
    (hl : lookupA e.transactions tid = some tr) (hc : tr.client ≠ tc) :
    e.process_transaction ⟨tc, tid, td, tt⟩ =
      ({ e with clients := orCreate e.clients tc },
        some .DisputeForDifferentClient) := by
  rcases ht with rfl | rfl | rfl <;>
    simp only [PaymentEngine.process_transaction, hl] <;>
    rw [if_pos hc]

theorem dispute_already_disputed (e : PaymentEngine) (tc tid : Nat) (td : Bool)
    (tr : Transaction) (amt : ℚ)
    (hl : lookupA e.transactions tid = some tr) (hc : tr.client = tc)
    (hs : signedDisputeAmount tr.type = some amt) (hd : tr.is_disputed = true) :
    e.process_transaction ⟨tc, tid, td, .Dispute⟩ =
      ({ e with clients := orCreate e.clients tc },
        some (.TransactionAlreadyDisputed tid)) := by
  simp only [PaymentEngine.process_transaction, hl, hc, hs, hd, ne_eq,
    not_true_eq_false, if_false, if_true]

theorem resolve_not_disputed (e : PaymentEngine) (tc tid : Nat) (td : Bool)
    (tr : Transaction) (amt : ℚ)
    (hl : lookupA e.transactions tid = some tr) (hc : tr.client = tc)
    (hs : signedDisputeAmount tr.type = some amt) (hd : tr.is_disputed = false) :
    e.process_transaction ⟨tc, tid, td, .Resolve⟩ =
      ({ e with clients := orCreate e.clients tc }, some (.NotDisputed tid)) := by
  simp only [PaymentEngine.process_transaction, hl, hc, hs, hd, ne_eq,
    not_true_eq_false, if_false, Bool.not_false, if_true]

theorem chargeback_not_disputed (e : PaymentEngine) (tc tid : Nat) (td : Bool)
    (tr : Transaction) (amt : ℚ)
    (hl : lookupA e.transactions tid = some tr) (hc : tr.client = tc)
    (hs : signedDisputeAmount tr.type = some amt) (hd : tr.is_disputed = false) :
    e.process_transaction ⟨tc, tid, td, .Chargeback⟩ =
      ({ e with clients := orCreate e.clients tc }, some (.NotDisputed tid)) := by
  simp only [PaymentEngine.process_transaction, hl, hc, hs, hd, ne_eq,
    not_true_eq_false, if_false, Bool.not_false, if_true]

theorem disputeClass_invalid_type (e : PaymentEngine) (tc tid : Nat) (td : Bool)
    (tt : TransactionType) (tr : Transaction)
    (ht : tt = .Dispute ∨ tt = .Resolve ∨ tt = .Chargeback)
    (hl : lookupA e.transactions tid = some tr) (hc : tr.client = tc)
    (hs : signedDisputeAmount tr.type = none) :
    e.process_transaction ⟨tc, tid, td, tt⟩ =
      ({ e with clients := orCreate e.clients tc },
        some (.InvalidTransactionType
          "dispute can only be applied to deposit or withdrawal")) := by
  rcases ht with rfl | rfl | rfl <;>
    simp only [PaymentEngine.process_transaction, hl, hc, hs, ne_eq,
      not_true_eq_false, if_false]

/-- Effect of a successful Dispute: the signed amount is moved from
`available` to `held` and the stored entry's `is_disputed` flag is set. -/
theorem dispute_success_effect (e : PaymentEngine) (tc tid : Nat) (td : Bool)
    (tr : Transaction) (amt : ℚ)
    (hl : lookupA e.transactions tid = some tr) (hc : tr.client = tc)
    (hs : signedDisputeAmount tr.type = some amt) (hd : tr.is_disputed = false) :
    e.process_transaction ⟨tc, tid, td, .Dispute⟩ =
      ({ clients := insertA (orCreate e.clients tc) tc
           { getClient e.clients tc with
             available := (getClient e.clients tc).available - amt,
             held := (getClient e.clients tc).held + amt },
         transactions := insertA e.transactions tid
           { tr with is_disputed := true } }, none) := by
  simp only [PaymentEngine.process_transaction, hl, hc, hs, hd, ne_eq,
    not_true_eq_false, if_false, Bool.false_eq_true, AccountStatus.hold_funds]

/-- Effect of a successful Resolve: the signed amount is moved back from
`held` to `available` and the stored entry's `is_disputed` flag is cleared. -/
theorem resolve_success_effect (e : PaymentEngine) (tc tid : Nat) (td : Bool)
    (tr : Transaction) (amt : ℚ)
    (hl : lookupA e.transactions tid = some tr) (hc : tr.client = tc)
    (hs : signedDisputeAmount tr.type = some amt) (hd : tr.is_disputed = true) :
    e.process_transaction ⟨tc, tid, td, .Resolve⟩ =
      ({ clients := insertA (orCreate e.clients tc) tc
           ((getClient e.clients tc).release_funds amt),
         transactions := insertA e.transactions tid
           { tr with is_disputed := false } }, none) := by
  simp only [PaymentEngine.process_transaction, hl, hc, hs, hd, ne_eq,
    not_true_eq_false, if_false, Bool.not_true]
  simp

/-- Effect of a successful Chargeback: the signed amount leaves both `held`
and `total`, the account is locked, and the stored entry's `is_disputed` flag
is cleared. -/
theorem chargeback_success_effect (e : PaymentEngine) (tc tid : Nat) (td : Bool)
    (tr : Transaction) (amt : ℚ)
    (hl : lookupA e.transactions tid = some tr) (hc : tr.client = tc)
    (hs : signedDisputeAmount tr.type = some amt) (hd : tr.is_disputed = true) :
    e.process_transaction ⟨tc, tid, td, .Chargeback⟩ =
      ({ clients := insertA (orCreate e.clients tc) tc
           ((getClient e.clients tc).chargeback amt),
         transactions := insertA e.transactions tid
           { tr with is_disputed := false } }, none) := by
  simp only [PaymentEngine.process_transaction, hl, hc, hs, hd, ne_eq,
    not_true_eq_false, if_false, Bool.not_true]
  simp

/-! ### Exact outcomes of the Deposit/Withdrawal arms of `process_transaction` -/

theorem deposit_negative_amount (e : PaymentEngine) (tc tid : Nat) (td : Bool)
    (amt : ℚ) (ha : amt < 0) :
    e.process_transaction ⟨tc, tid, td, .Deposit amt⟩ =
      ({ e with clients := orCreate e.clients tc },
        some (.InvalidAmount amt "deposit amount cannot be negative")) := by
  simp only [PaymentEngine.process_transaction, if_pos ha]

theorem withdrawal_negative_amount (e : PaymentEngine) (tc tid : Nat) (td : Bool)
    (amt : ℚ) (ha : amt < 0) :
    e.process_transaction ⟨tc, tid, td, .Withdrawal amt⟩ =
      ({ e with clients := orCreate e.clients tc },
        some (.InvalidAmount amt "withdrawal amount cannot be negative")) := by
  simp only [PaymentEngine.process_transaction, if_pos ha]

theorem deposit_locked (e : PaymentEngine) (tc tid : Nat) (td : Bool)
    (amt : ℚ) (ha : ¬ amt < 0) (hlock : (getClient e.clients tc).locked = true) :
    e.process_transaction ⟨tc, tid, td, .Deposit amt⟩ =
      ({ e with clients := orCreate e.clients tc },
        some (.AccountLocked (getClient e.clients tc).client)) := by
  simp only [PaymentEngine.process_transaction, if_neg ha,
    AccountStatus.deposit, hlock, if_true]

theorem withdrawal_locked (e : PaymentEngine) (tc tid : Nat) (td : Bool)
    (amt : ℚ) (ha : ¬ amt < 0) (hlock : (getClient e.clients tc).locked = true) :
    e.process_transaction ⟨tc, tid, td, .Withdrawal amt⟩ =
      ({ e with clients := orCreate e.clients tc },
        some (.AccountLocked (getClient e.clients tc).client)) := by
  simp only [PaymentEngine.process_transaction, if_neg ha,
    AccountStatus.withdraw, hlock, if_true]

theorem withdrawal_insufficient (e : PaymentEngine) (tc tid : Nat) (td : Bool)
    (amt : ℚ) (ha : ¬ amt < 0) (hlock : (getClient e.clients tc).locked = false)
    (hav : (getClient e.clients tc).available < amt) :
    e.process_transaction ⟨tc, tid, td, .Withdrawal amt⟩ =
      ({ e with clients := orCreate e.clients tc }, some .InsufficientFunds) := by
  simp only [PaymentEngine.process_transaction, if_neg ha,
    AccountStatus.withdraw, hlock, if_pos hav]
  simp

theorem deposit_success_effect (e : PaymentEngine) (tc tid : Nat) (td : Bool)
    (amt : ℚ) (ha : ¬ amt < 0) (hlock : (getClient e.clients tc).locked = false) :
    e.process_transaction ⟨tc, tid, td, .Deposit amt⟩ =
      ({ clients := insertA (orCreate e.clients tc) tc
           { getClient e.clients tc with
             available := (getClient e.clients tc).available + amt,
             total := (getClient e.clients tc).total + amt },
         transactions := insertA e.transactions tid ⟨tc, tid, td, .Deposit amt⟩ },
        none) := by
  simp only [PaymentEngine.process_transaction, if_neg ha,
    AccountStatus.deposit, hlock]
  simp

theorem withdrawal_success_effect (e : PaymentEngine) (tc tid : Nat) (td : Bool)
    (amt : ℚ) (ha : ¬ amt < 0) (hlock : (getClient e.clients tc).locked = false)
    (hav : ¬ (getClient e.clients tc).available < amt) :
    e.process_transaction ⟨tc, tid, td, .Withdrawal amt⟩ =
      ({ clients := insertA (orCreate e.clients tc) tc
           { getClient e.clients tc with
             available := (getClient e.clients tc).available - amt,
             total := (getClient e.clients tc).total - amt },
         transactions := insertA e.transactions tid ⟨tc, tid, td, .Withdrawal amt⟩ },
        none) := by
  simp only [PaymentEngine.process_transaction, if_neg ha,
    AccountStatus.withdraw, hlock, if_neg hav]
  simp

/-- C6: `withdraw` fails `AccountLocked` on a locked account, fails
`InsufficientFunds` when `available < amount`, and otherwise decrements both
`available` and `total` by the amount; a withdrawal transaction rejected by
`process_transaction` leaves every existing account unchanged. -/
theorem withdraw_spec (a : AccountStatus) (amt : ℚ) :
    (a.locked = true → a.withdraw amt = .error (.AccountLocked a.client)) ∧
    (a.locked = false → a.available < amt →
      a.withdraw amt = .error .InsufficientFunds) ∧
    (a.locked = false → ¬ a.available < amt →
      a.withdraw amt = .ok { a with available := a.available - amt,
                                    total := a.total - amt }) ∧
    (∀ (e : PaymentEngine) (tc tid : Nat) (td : Bool) (err : PaymentEngineError),
      (e.process_transaction ⟨tc, tid, td, .Withdrawal amt⟩).2 = some err →
      ∀ c acct, lookupA e.clients c = some acct →
        lookupA (e.process_transaction ⟨tc, tid, td, .Withdrawal amt⟩).1.clients c =
          some acct) := by
  refine ⟨?_, ?_, ?_, ?_⟩
  · intro hl
    simp [AccountStatus.withdraw, hl]
  · intro hl hav
    simp [AccountStatus.withdraw, hl, hav]
  · intro hl hav
    simp [AccountStatus.withdraw, hl, hav]
  · intro e tc tid td err herr c acct hc
    exact process_transaction_error_frame e ⟨tc, tid, td, .Withdrawal amt⟩ err herr c acct hc

theorem withdraw_spec_witness :
    acct50.locked = false ∧ acct50.available < 100 ∧
    acct50.withdraw 100 = .error .InsufficientFunds :=
  ⟨rfl, by norm_num [acct50], (withdraw_spec acct50 100).2.1 rfl (by norm_num [acct50])⟩

/-- C3: whenever `process_transaction` returns an error, every account that
existed before the call is still present afterwards with identical
`available`, `held`, `total` and `locked`: no validation failure mutates an
account. -/
theorem failed_transaction_changes_no_account
    (e : PaymentEngine) (t : Transaction) (err : PaymentEngineError)
    (h : (e.process_transaction t).2 = some err) :
    ∀ c a, lookupA e.clients c = some a →
      lookupA (e.process_transaction t).1.clients c = some a :=
  process_transaction_error_frame e t err h

theorem failed_transaction_changes_no_account_witness :
    (engine50.process_transaction (Transaction.new 1 2 (.Withdrawal 100))).2 =
      some .InsufficientFunds ∧
    lookupA ((engine50.process_transaction
        (Transaction.new 1 2 (.Withdrawal 100))).1.clients) 1 = some acct50 :=
  ⟨by norm_num [PaymentEngine.process_transaction, engine50, acct50, Transaction.new,
      getClient, orCreate, lookupA, insertA, AccountStatus.withdraw],
   failed_transaction_changes_no_account engine50
     (Transaction.new 1 2 (.Withdrawal 100)) .InsufficientFunds
     (by norm_num [PaymentEngine.process_transaction, engine50, acct50, Transaction.new,
        getClient, orCreate, lookupA, insertA, AccountStatus.withdraw])
     1 acct50 (by norm_num [engine50, lookupA])⟩

/-- Single step of the lock latch: a locked account stays present and locked
through any one call to `process_transaction`. -/
theorem locked_persists_step (e : PaymentEngine) (t : Transaction) (c : Nat)
    (acct : AccountStatus) (h : lookupA e.clients c = some acct)
    (hl : acct.locked = true) :
    ∃ acct2, lookupA (e.process_transaction t).1.clients c = some acct2 ∧
      acct2.locked = true := by
  obtain ⟨tc, tid, td, tt⟩ := t
  by_cases hc : c = tc
  case neg =>
    rcases process_transaction_shape e ⟨tc, tid, td, tt⟩ with ⟨hcl, _⟩ | ⟨v, hcl, _⟩
    · exact ⟨acct, by rw [hcl]; exact lookupA_orCreate_preserved h, hl⟩
    · refine ⟨acct, ?_, hl⟩
      rw [hcl, lookupA_insertA_ne _ _ _ _ hc]
      exact lookupA_orCreate_preserved h
  case pos =>
    subst hc
    have hg : getClient e.clients c = acct := by simp [getClient, h]
    cases tt with
    | Deposit amt =>
        by_cases ha : amt < 0
        · rw [deposit_negative_amount e c tid td amt ha]
          exact ⟨acct, lookupA_orCreate_preserved h, hl⟩
        · rw [deposit_locked e c tid td amt ha (by rw [hg]; exact hl)]
          exact ⟨acct, lookupA_orCreate_preserved h, hl⟩
    | Withdrawal amt =>
        by_cases ha : amt < 0
        · rw [withdrawal_negative_amount e c tid td amt ha]
          exact ⟨acct, lookupA_orCreate_preserved h, hl⟩
        · rw [withdrawal_locked e c tid td amt ha (by rw [hg]; exact hl)]
          exact ⟨acct, lookupA_orCreate_preserved h, hl⟩
    | Dispute =>
        cases hlt : lookupA e.transactions tid with
        | none =>
            rw [disputeClass_not_found e c tid td _ (Or.inl rfl) hlt]
            exact ⟨acct, lookupA_orCreate_preserved h, hl⟩
        | some tr =>
            by_cases hcl : tr.client = c
            · cases hs : signedDisputeAmount tr.type with
              | none =>
                  rw [disputeClass_invalid_type e c tid td _ tr (Or.inl rfl) hlt hcl hs]
                  exact ⟨acct, lookupA_orCreate_preserved h, hl⟩
              | some amt =>
                  cases hd : tr.is_disputed with
                  | true =>
                      rw [dispute_already_disputed e c tid td tr amt hlt hcl hs hd]
                      exact ⟨acct, lookupA_orCreate_preserved h, hl⟩
                  | false =>
                      rw [dispute_success_effect e c tid td tr amt hlt hcl hs hd]
                      refine ⟨_, lookupA_insertA_self _ _ _, ?_⟩
                      simp only [hg]
                      exact hl
            · rw [disputeClass_different_client e c tid td _ tr (Or.inl rfl) hlt hcl]
              exact ⟨acct, lookupA_orCreate_preserved h, hl⟩
    | Resolve =>
        cases hlt : lookupA e.transactions tid with
        | none =>
            rw [disputeClass_not_found e c tid td _ (Or.inr (Or.inl rfl)) hlt]
            exact ⟨acct, lookupA_orCreate_preserved h, hl⟩
        | some tr =>
            by_cases hcl : tr.client = c
            · cases hs : signedDisputeAmount tr.type with
              | none =>
                  rw [disputeClass_invalid_type e c tid td _ tr (Or.inr (Or.inl rfl)) hlt hcl hs]
                  exact ⟨acct, lookupA_orCreate_preserved h, hl⟩
              | some amt =>
                  cases hd : tr.is_disputed with
                  | false =>
                      rw [resolve_not_disputed e c tid td tr amt hlt hcl hs hd]
                      exact ⟨acct, lookupA_orCreate_preserved h, hl⟩
                  | true =>
                      rw [resolve_success_effect e c tid td tr amt hlt hcl hs hd]
                      refine ⟨_, lookupA_insertA_self _ _ _, ?_⟩
                      simp only [AccountStatus.release_funds, hg]
                      exact hl
            · rw [disputeClass_different_client e c tid td _ tr (Or.inr (Or.inl rfl)) hlt hcl]
              exact ⟨acct, lookupA_orCreate_preserved h, hl⟩
    | Chargeback =>
        cases hlt : lookupA e.transactions tid with
        | none =>
            rw [disputeClass_not_found e c tid td _ (Or.inr (Or.inr rfl)) hlt]
            exact ⟨acct, lookupA_orCreate_preserved h, hl⟩
        | some tr =>
            by_cases hcl : tr.client = c
            · cases hs : signedDisputeAmount tr.type with
              | none =>
                  rw [disputeClass_invalid_type e c tid td _ tr (Or.inr (Or.inr rfl)) hlt hcl hs]
                  exact ⟨acct, lookupA_orCreate_preserved h, hl⟩
              | some amt =>
                  cases hd : tr.is_disputed with
                  | false =>
                      rw [chargeback_not_disputed e c tid td tr amt hlt hcl hs hd]
                      exact ⟨acct, lookupA_orCreate_preserved h, hl⟩
                  | true =>
                      rw [chargeback_success_effect e c tid td tr amt hlt hcl hs hd]
                      refine ⟨_, lookupA_insertA_self _ _ _, ?_⟩
                      simp [AccountStatus.chargeback]
            · rw [disputeClass_different_client e c tid td _ tr (Or.inr (Or.inr rfl)) hlt hcl]
              exact ⟨acct, lookupA_orCreate_preserved h, hl⟩

/-- A locked account stays present and locked through any transaction list. -/
theorem locked_persists_all (e : PaymentEngine) (ts : List Transaction) (c : Nat)
    (acct : AccountStatus) (h : lookupA e.clients c = some acct)
    (hl : acct.locked = true) :
    ∃ acct2, lookupA (e.process_all ts).clients c = some acct2 ∧
      acct2.locked = true := by
  induction ts generalizing e acct with
  | nil => exact ⟨acct, h, hl⟩
  | cons t rest ih =>
      rcases locked_persists_step e t c acct h hl with ⟨acct2, h2, hl2⟩
      simpa [PaymentEngine.process_all] using ih _ _ h2 hl2

/-- C5: the `locked` flag is a one-way latch: once an account is locked, it
remains present and locked after any further sequence of
`process_transaction` calls — `locked` never transitions back to `false`. -/
theorem locked_is_one_way_latch (e : PaymentEngine) (ts : List Transaction)
    (c : Nat) (acct : AccountStatus) (h : lookupA e.clients c = some acct)
    (hl : acct.locked = true) :
    lookupA (e.process_all ts).clients c ≠ none ∧
    ∀ acct2, lookupA (e.process_all ts).clients c = some acct2 →
      acct2.locked = true := by
  rcases locked_persists_all e ts c acct h hl with ⟨acct2, h2, hl2⟩
  refine ⟨by rw [h2]; simp, ?_⟩
  intro acct3 h3
  rw [h2] at h3
  injection h3 with hh
  rw [← hh]
  exact hl2

theorem locked_is_one_way_latch_witness :
    lookupA ((lockedEngine.process_all
        [Transaction.new 1 2 (.Deposit 5)]).clients) 1 = some lockedAcct ∧
    lockedAcct.locked = true :=
  ⟨by norm_num [PaymentEngine.process_all, PaymentEngine.process_transaction,
      lockedEngine, lockedAcct, Transaction.new, getClient, orCreate, lookupA,
      insertA, AccountStatus.deposit],
   (locked_is_one_way_latch lockedEngine [Transaction.new 1 2 (.Deposit 5)] 1
      lockedAcct (by norm_num [lockedEngine, lookupA]) rfl).2 lockedAcct
      (by norm_num [PaymentEngine.process_all, PaymentEngine.process_transaction,
        lockedEngine, lockedAcct, Transaction.new, getClient, orCreate, lookupA,
        insertA, AccountStatus.deposit])⟩

/-- C4: the dispute state machine of `process_transaction`: a Dispute succeeds
exactly when the referenced history entry exists, belongs to the same client
and is not currently disputed (otherwise `TransactionNotFound`,
`DisputeForDifferentClient` or `TransactionAlreadyDisputed`); a Resolve or
Chargeback succeeds exactly when the entry exists, belongs to the same client
and is currently disputed (a non-disputed entry yields `NotDisputed`).  The
history hypothesis states that only deposits and withdrawals are stored, which
`process_transaction` itself guarantees. -/
theorem dispute_state_machine (e : PaymentEngine) (t : Transaction)
    (hHist : ∀ id tr, lookupA e.transactions id = some tr →
      (∃ q, tr.type = .Deposit q) ∨ (∃ q, tr.type = .Withdrawal q)) :
    (t.type = .Dispute →
      (((e.process_transaction t).2 = none) ↔
        ∃ tr, lookupA e.transactions t.id = some tr ∧ tr.client = t.client ∧
          tr.is_disputed = false)) ∧
    (t.type = .Resolve →
      (((e.process_transaction t).2 = none) ↔
        ∃ tr, lookupA e.transactions t.id = some tr ∧ tr.client = t.client ∧
          tr.is_disputed = true)) ∧
    (t.type = .Chargeback →
      (((e.process_transaction t).2 = none) ↔
        ∃ tr, lookupA e.transactions t.id = some tr ∧ tr.client = t.client ∧
          tr.is_disputed = true)) ∧
    ((t.type = .Dispute ∨ t.type = .Resolve ∨ t.type = .Chargeback) →
      lookupA e.transactions t.id = none →
      (e.process_transaction t).2 = some (.TransactionNotFound t.id)) ∧
    ((t.type = .Dispute ∨ t.type = .Resolve ∨ t.type = .Chargeback) →
      ∀ tr, lookupA e.transactions t.id = some tr → tr.client ≠ t.client →
      (e.process_transaction t).2 = some .DisputeForDifferentClient) ∧
    (t.type = .Dispute → ∀ tr, lookupA e.transactions t.id = some tr →
      tr.client = t.client → tr.is_disputed = true →
      (e.process_transaction t).2 = some (.TransactionAlreadyDisputed t.id)) ∧
    ((t.type = .Resolve ∨ t.type = .Chargeback) →
      ∀ tr, lookupA e.transactions t.id = some tr → tr.client = t.client →
      tr.is_disputed = false →
      (e.process_transaction t).2 = some (.NotDisputed t.id)) := by
  obtain ⟨tc, tid, td, tt⟩ := t
  have hsig : ∀ tr : Transaction, lookupA e.transactions tid = some tr →
      ∃ q, signedDisputeAmount tr.type = some q := by
    intro tr hltr
    rcases hHist tid tr hltr with ⟨q, hq⟩ | ⟨q, hq⟩
    · exact ⟨q, by rw [hq]; rfl⟩
    · exact ⟨-q, by rw [hq]; rfl⟩
  refine ⟨?_, ?_, ?_, ?_, ?_, ?_, ?_⟩
  · intro ht
    subst ht
    constructor
    · intro hnone
      cases hlt : lookupA e.transactions tid with
      | none =>
          rw [disputeClass_not_found e tc tid td _ (Or.inl rfl) hlt] at hnone
          exact absurd hnone (by simp)
      | some tr =>
          by_cases hcl : tr.client = tc
          · obtain ⟨q, hs⟩ := hsig tr hlt
            cases hd : tr.is_disputed with
            | true =>
                rw [dispute_already_disputed e tc tid td tr q hlt hcl hs hd] at hnone
                exact absurd hnone (by simp)
            | false => exact ⟨tr, rfl, hcl, hd⟩
          · rw [disputeClass_different_client e tc tid td _ tr (Or.inl rfl) hlt hcl] at hnone
            exact absurd hnone (by simp)
    · rintro ⟨tr, hlt, hcl, hd⟩
      obtain ⟨q, hs⟩ := hsig tr hlt
      rw [dispute_success_effect e tc tid td tr q hlt hcl hs hd]
  · intro ht
    subst ht
    constructor
    · intro hnone
      cases hlt : lookupA e.transactions tid with
      | none =>
          rw [disputeClass_not_found e tc tid td _ (Or.inr (Or.inl rfl)) hlt] at hnone
          exact absurd hnone (by simp)
      | some tr =>
          by_cases hcl : tr.client = tc
          · obtain ⟨q, hs⟩ := hsig tr hlt
            cases hd : tr.is_disputed with
            | false =>
                rw [resolve_not_disputed e tc tid td tr q hlt hcl hs hd] at hnone
                exact absurd hnone (by simp)
            | true => exact ⟨tr, rfl, hcl, hd⟩
          · rw [disputeClass_different_client e tc tid td _ tr (Or.inr (Or.inl rfl)) hlt hcl]
              at hnone
            exact absurd hnone (by simp)
    · rintro ⟨tr, hlt, hcl, hd⟩
      obtain ⟨q, hs⟩ := hsig tr hlt
      rw [resolve_success_effect e tc tid td tr q hlt hcl hs hd]
  · intro ht
    subst ht
    constructor
    · intro hnone
      cases hlt : lookupA e.transactions tid with
      | none =>
          rw [disputeClass_not_found e tc tid td _ (Or.inr (Or.inr rfl)) hlt] at hnone
          exact absurd hnone (by simp)
      | some tr =>
          by_cases hcl : tr.client = tc
          · obtain ⟨q, hs⟩ := hsig tr hlt
            cases hd : tr.is_disputed with
            | false =>
                rw [chargeback_not_disputed e tc tid td tr q hlt hcl hs hd] at hnone
                exact absurd hnone (by simp)
            | true => exact ⟨tr, rfl, hcl, hd⟩
          · rw [disputeClass_different_client e tc tid td _ tr (Or.inr (Or.inr rfl)) hlt hcl]
              at hnone
            exact absurd hnone (by simp)
    · rintro ⟨tr, hlt, hcl, hd⟩
      obtain ⟨q, hs⟩ := hsig tr hlt
      rw [chargeback_success_effect e tc tid td tr q hlt hcl hs hd]
  · intro ht hlt
    rw [disputeClass_not_found e tc tid td _ ht hlt]
  · intro ht tr hlt hcl
    rw [disputeClass_different_client e tc tid td _ tr ht hlt hcl]
  · intro ht tr hlt hcl hd
    subst ht
    obtain ⟨q, hs⟩ := hsig tr hlt
    rw [dispute_already_disputed e tc tid td tr q hlt hcl hs hd]
  · intro ht tr hlt hcl hd
    obtain ⟨q, hs⟩ := hsig tr hlt
    rcases ht with rfl | rfl
    · rw [resolve_not_disputed e tc tid td tr q hlt hcl hs hd]
    · rw [chargeback_not_disputed e tc tid td tr q hlt hcl hs hd]

theorem dispute_state_machine_witness :
    (engine50.process_transaction (Transaction.new 1 1 .Dispute)).2 = none :=
  ((dispute_state_machine engine50 (Transaction.new 1 1 .Dispute)
      (by
        intro id tr h
        simp only [engine50, lookupA] at h
        split at h
        · injection h with hh
          rw [← hh]
          exact Or.inl ⟨50, rfl⟩
        · exact absurd h (by simp))).1 rfl).mpr
    ⟨{ client := 1, id := 1, is_disputed := false, type := .Deposit 50 },
      by norm_num [engine50, lookupA, Transaction.new], rfl, rfl⟩

/-- C2: the amount held, released or charged back for a dispute-class
transaction is the referenced entry's amount for a Deposit and its negation
for a Withdrawal; concretely, Deposit(200,id=1), Withdrawal(50,id=2),
Dispute(id=2) gives held=-50, available=200, total=150, and a following
Chargeback(id=2) gives available=200, held=0, total=200, locked. -/
theorem dispute_amount_sign_rule :
    (∀ q : ℚ, signedDisputeAmount (.Deposit q) = some q) ∧
    (∀ q : ℚ, signedDisputeAmount (.Withdrawal q) = some (-q)) ∧
    (∀ (e : PaymentEngine) (tc tid : Nat) (td : Bool) (tr : Transaction) (q : ℚ),
      lookupA e.transactions tid = some tr → tr.client = tc →
      tr.is_disputed = false → signedDisputeAmount tr.type = some q →
      lookupA ((e.process_transaction ⟨tc, tid, td, .Dispute⟩).1.clients) tc =
        some { getClient e.clients tc with
               available := (getClient e.clients tc).available - q,
               held := (getClient e.clients tc).held + q }) ∧
    (∀ (e : PaymentEngine) (tc tid : Nat) (td : Bool) (tr : Transaction) (q : ℚ),
      lookupA e.transactions tid = some tr → tr.client = tc →
      tr.is_disputed = true → signedDisputeAmount tr.type = some q →
      lookupA ((e.process_transaction ⟨tc, tid, td, .Resolve⟩).1.clients) tc =
        some ((getClient e.clients tc).release_funds q)) ∧
    (∀ (e : PaymentEngine) (tc tid : Nat) (td : Bool) (tr : Transaction) (q : ℚ),
      lookupA e.transactions tid = some tr → tr.client = tc →
      tr.is_disputed = true → signedDisputeAmount tr.type = some q →
      lookupA ((e.process_transaction ⟨tc, tid, td, .Chargeback⟩).1.clients) tc =
        some ((getClient e.clients tc).chargeback q)) ∧
    (lookupA ((PaymentEngine.new.process_all
        [Transaction.new 1 1 (.Deposit 200), Transaction.new 1 2 (.Withdrawal 50),
         Transaction.new 1 2 .Dispute]).clients) 1 =
      some { client := 1, available := 200, held := -50, total := 150,
             locked := false }) ∧
    (lookupA ((PaymentEngine.new.process_all
        [Transaction.new 1 1 (.Deposit 200), Transaction.new 1 2 (.Withdrawal 50),
         Transaction.new 1 2 .Dispute, Transaction.new 1 2 .Chargeback]).clients) 1 =
      some { client := 1, available := 200, held := 0, total := 200,
             locked := true }) := by
  refine ⟨fun q => rfl, fun q => rfl, ?_, ?_, ?_, ?_, ?_⟩
  · intro e tc tid td tr q hl hc hd hs
    rw [dispute_success_effect e tc tid td tr q hl hc hs hd]
    exact lookupA_insertA_self _ _ _
  · intro e tc tid td tr q hl hc hd hs
    rw [resolve_success_effect e tc tid td tr q hl hc hs hd]
    exact lookupA_insertA_self _ _ _
  · intro e tc tid td tr q hl hc hd hs
    rw [chargeback_success_effect e tc tid td tr q hl hc hs hd]
    exact lookupA_insertA_self _ _ _
  · norm_num [PaymentEngine.process_all, PaymentEngine.process_transaction,
      PaymentEngine.new, Transaction.new, getClient, orCreate, lookupA, insertA,
      AccountStatus.new, AccountStatus.deposit, AccountStatus.withdraw,
      AccountStatus.hold_funds, AccountStatus.release_funds,
      AccountStatus.chargeback, signedDisputeAmount]
  · norm_num [PaymentEngine.process_all, PaymentEngine.process_transaction,
      PaymentEngine.new, Transaction.new, getClient, orCreate, lookupA, insertA,
      AccountStatus.new, AccountStatus.deposit, AccountStatus.withdraw,
      AccountStatus.hold_funds, AccountStatus.release_funds,
      AccountStatus.chargeback, signedDisputeAmount]

theorem dispute_amount_sign_rule_witness :
    signedDisputeAmount (.Deposit 7) = some 7 ∧
    signedDisputeAmount (.Withdrawal 7) = some (-7) :=
  ⟨dispute_amount_sign_rule.1 7, dispute_amount_sign_rule.2.1 7⟩

/-- C7 counterexample: a Dispute naming an unknown transaction id, sent for a
previously-unseen client, does change the state observable in the snapshot:
the `entry` call lazily creates a fresh zero-balance account for the dispute's
client, which then appears in `get_accounts_statuses`. -/
theorem failed_dispute_changes_snapshot :
    (PaymentEngine.new.process_transaction (Transaction.new 1 99 .Dispute)).2 =
      some (.TransactionNotFound 99) ∧
    (PaymentEngine.new.process_transaction
        (Transaction.new 1 99 .Dispute)).1.get_accounts_statuses ≠
      PaymentEngine.new.get_accounts_statuses ∧
    (PaymentEngine.new.process_transaction
        (Transaction.new 1 99 .Dispute)).1.get_accounts_statuses =
      [AccountStatus.new 1] := by
  refine ⟨?_, ?_, ?_⟩ <;>
    norm_num [PaymentEngine.process_transaction, PaymentEngine.new,
      PaymentEngine.get_accounts_statuses, Transaction.new, getClient, orCreate,
      lookupA, insertA, AccountStatus.new]

/-- C7 amended: a Dispute naming an unknown transaction id, or one whose
entry belongs to a different client, is rejected and mutates no pre-existing
account; the only possible change is the lazy creation of the fresh
zero-balance account for the dispute's client. -/
theorem failed_dispute_frame (e : PaymentEngine) (t : Transaction)
    (ht : t.type = .Dispute)
    (hbad : lookupA e.transactions t.id = none ∨
      ∃ tr, lookupA e.transactions t.id = some tr ∧ tr.client ≠ t.client) :
    (e.process_transaction t).2 ≠ none ∧
    (∀ c a, lookupA e.clients c = some a →
      lookupA (e.process_transaction t).1.clients c = some a) ∧
    (∀ c a, lookupA (e.process_transaction t).1.clients c = some a →
      lookupA e.clients c = some a ∨
        (c = t.client ∧ a = AccountStatus.new t.client)) := by
  obtain ⟨tc, tid, td, tt⟩ := t
  have ht' : tt = .Dispute := ht
  subst ht'
  rcases hbad with hlt | ⟨tr, hlt, hcl⟩
  · rw [disputeClass_not_found e tc tid td _ (Or.inl rfl) hlt]
    refine ⟨by simp, ?_, ?_⟩
    · intro c a h
      exact lookupA_orCreate_preserved h
    · intro c a h
      rcases lookupA_orCreate_cases h with h' | ⟨rfl, rfl⟩
      · exact Or.inl h'
      · exact Or.inr ⟨rfl, rfl⟩
  · rw [disputeClass_different_client e tc tid td _ tr (Or.inl rfl) hlt hcl]
    refine ⟨by simp, ?_, ?_⟩
    · intro c a h
      exact lookupA_orCreate_preserved h
    · intro c a h
      rcases lookupA_orCreate_cases h with h' | ⟨rfl, rfl⟩
      · exact Or.inl h'
      · exact Or.inr ⟨rfl, rfl⟩

theorem failed_dispute_frame_witness :
    lookupA ((engine50.process_transaction
        (Transaction.new 1 99 .Dispute)).1.clients) 1 = some acct50 :=
  (failed_dispute_frame engine50 (Transaction.new 1 99 .Dispute) rfl
      (Or.inl (by norm_num [engine50, lookupA, Transaction.new]))).2.1 1 acct50
    (by norm_num [engine50, lookupA])

/-- C8 counterexample: a successful Chargeback does clear the referenced
entry's `is_disputed` flag back to `false` (permanence comes from the account
lock, not the flag): after Deposit(100,id=1), Dispute(1), Chargeback(1) the
stored entry is undisputed again. -/
theorem chargeback_clears_disputed_flag :
    lookupA ((PaymentEngine.new.process_all
        [Transaction.new 1 1 (.Deposit 100), Transaction.new 1 1 .Dispute,
         Transaction.new 1 1 .Chargeback]).transactions) 1 =
      some { client := 1, id := 1, is_disputed := false,
             type := .Deposit 100 } := by
  norm_num [PaymentEngine.process_all, PaymentEngine.process_transaction,
    PaymentEngine.new, Transaction.new, getClient, orCreate, lookupA, insertA,
    AccountStatus.new, AccountStatus.deposit, AccountStatus.hold_funds,
    AccountStatus.chargeback, signedDisputeAmount]

/-- C8 amended: a history entry's `is_disputed` flag is set by a successful
Dispute and cleared by a successful Resolve; a successful Chargeback also
clears it back to `false` — irreversibility is provided by locking the owning
account, not by the flag. -/
theorem disputed_flag_transitions (e : PaymentEngine) (tc tid : Nat) (td : Bool)
    (tr : Transaction) (q : ℚ)
    (hl : lookupA e.transactions tid = some tr) (hc : tr.client = tc)
    (hs : signedDisputeAmount tr.type = some q) :
    (tr.is_disputed = false →
      lookupA ((e.process_transaction ⟨tc, tid, td, .Dispute⟩).1.transactions) tid =
        some { tr with is_disputed := true }) ∧
    (tr.is_disputed = true →
      lookupA ((e.process_transaction ⟨tc, tid, td, .Resolve⟩).1.transactions) tid =
        some { tr with is_disputed := false }) ∧
    (tr.is_disputed = true →
      (e.process_transaction ⟨tc, tid, td, .Chargeback⟩).2 = none ∧
      lookupA ((e.process_transaction ⟨tc, tid, td, .Chargeback⟩).1.transactions) tid =
        some { tr with is_disputed := false } ∧
      lookupA ((e.process_transaction ⟨tc, tid, td, .Chargeback⟩).1.clients) tc =
        some ((getClient e.clients tc).chargeback q) ∧
      ((getClient e.clients tc).chargeback q).locked = true) := by
  refine ⟨?_, ?_, ?_⟩
  · intro hd
    rw [dispute_success_effect e tc tid td tr q hl hc hs hd]
    exact lookupA_insertA_self _ _ _
  · intro hd
    rw [resolve_success_effect e tc tid td tr q hl hc hs hd]
    exact lookupA_insertA_self _ _ _
  · intro hd
    rw [chargeback_success_effect e tc tid td tr q hl hc hs hd]
    exact ⟨rfl, lookupA_insertA_self _ _ _, lookupA_insertA_self _ _ _, rfl⟩

theorem disputed_flag_transitions_witness :
    lookupA ((engine50.process_transaction
        (Transaction.new 1 1 .Dispute)).1.transactions) 1 =
      some { client := 1, id := 1, is_disputed := true, type := .Deposit 50 } :=
  (disputed_flag_transitions engine50 1 1 false
      { client := 1, id := 1, is_disputed := false, type := .Deposit 50 } 50
      (by norm_num [engine50, lookupA]) rfl rfl).1 rfl

theorem process_transaction_preserves_balance_invariant_witness :
    lookupA ((PaymentEngine.new.process_transaction
        (Transaction.new 1 1 (.Deposit 100))).1.clients) 1 =
      some { client := 1, available := 100, held := 0, total := 100,
             locked := false } ∧
    ({ client := 1, available := 100, held := 0, total := 100,
       locked := false } : AccountStatus).total =
      ({ client := 1, available := 100, held := 0, total := 100,
         locked := false } : AccountStatus).available +
      ({ client := 1, available := 100, held := 0, total := 100,
         locked := false } : AccountStatus).held :=
  ⟨by norm_num [PaymentEngine.process_transaction, PaymentEngine.new,
      Transaction.new, getClient, orCreate, lookupA, insertA, AccountStatus.new,
      AccountStatus.deposit],
   process_transaction_preserves_balance_invariant PaymentEngine.new
     (Transaction.new 1 1 (.Deposit 100))
     (by intro c a h; simp [PaymentEngine.new, lookupA] at h) 1 _
     (by norm_num [PaymentEngine.process_transaction, PaymentEngine.new,
        Transaction.new, getClient, orCreate, lookupA, insertA, AccountStatus.new,
        AccountStatus.deposit])⟩

/-- C9: dispute-class operations are never blocked by the account lock: in the
sequence Deposit(q,1), Dispute(1), Chargeback(1), Dispute(1), Chargeback(1)
every transaction succeeds, the second Dispute and Chargeback act on the
already-locked account, and the second Chargeback debits the total by `q` a
second time (from 0 down to `-q`). -/
theorem dispute_not_blocked_by_lock (q : ℚ) (hq : 0 ≤ q) :
    (cbTrace1 q).2 = none ∧ (cbTrace2 q).2 = none ∧ (cbTrace3 q).2 = none ∧
    (cbTrace4 q).2 = none ∧ (cbTrace5 q).2 = none ∧
    lookupA (cbTrace3 q).1.clients 1 =
      some { client := 1, available := 0, held := 0, total := 0, locked := true } ∧
    lookupA (cbTrace5 q).1.clients 1 =
      some { client := 1, available := -q, held := 0, total := -q,
             locked := true } := by
  have hq' : ¬ q < 0 := not_lt.mpr hq
  refine ⟨?_, ?_, ?_, ?_, ?_, ?_, ?_⟩ <;>
    norm_num [cbTrace1, cbTrace2, cbTrace3, cbTrace4, cbTrace5,
      PaymentEngine.process_all, PaymentEngine.process_transaction,
      PaymentEngine.new, Transaction.new, getClient, orCreate, lookupA, insertA,
      AccountStatus.new, AccountStatus.deposit, AccountStatus.hold_funds,
      AccountStatus.release_funds, AccountStatus.chargeback,
      signedDisputeAmount, hq']

theorem dispute_not_blocked_by_lock_witness :
    (cbTrace5 100).2 = none ∧
    lookupA (cbTrace5 100).1.clients 1 =
      some { client := 1, available := -100, held := 0, total := -100,
             locked := true } := by
  obtain ⟨-, -, -, -, h5, -, h7⟩ := dispute_not_blocked_by_lock 100 (by norm_num)
  exact ⟨h5, h7⟩

/-- C10: a Deposit or Withdrawal reusing an existing transaction id is not
rejected: its balance effect is applied and the stored history entry for that
id is silently replaced by the new transaction (whose `is_disputed` is false
when built by `Transaction::new`), so a later Dispute of that id holds the
newer transaction's amount with the newer transaction's sign. -/
theorem duplicate_id_replaces_history (e : PaymentEngine) (c id : Nat) (q : ℚ)
    (acct : AccountStatus) (old : Transaction)
    (hacct : lookupA e.clients c = some acct) (hlock : acct.locked = false)
    (hold : lookupA e.transactions id = some old) (hq : ¬ q < 0)
    (hav : ¬ acct.available < q) :
    ((e.process_transaction (Transaction.new c id (.Deposit q))).2 = none ∧
     lookupA ((e.process_transaction
         (Transaction.new c id (.Deposit q))).1.transactions) id =
       some (Transaction.new c id (.Deposit q)) ∧
     (Transaction.new c id (.Deposit q)).is_disputed = false ∧
     lookupA (((e.process_transaction (Transaction.new c id (.Deposit q))).1.process_transaction
         (Transaction.new c id .Dispute)).1.clients) c =
       some { acct with held := acct.held + q, total := acct.total + q }) ∧
    ((e.process_transaction (Transaction.new c id (.Withdrawal q))).2 = none ∧
     lookupA ((e.process_transaction
         (Transaction.new c id (.Withdrawal q))).1.transactions) id =
       some (Transaction.new c id (.Withdrawal q)) ∧
     lookupA (((e.process_transaction (Transaction.new c id (.Withdrawal q))).1.process_transaction
         (Transaction.new c id .Dispute)).1.clients) c =
       some { acct with held := acct.held - q, total := acct.total - q }) := by
  have hg : getClient e.clients c = acct := by simp [getClient, hacct]
  have hgl : (getClient e.clients c).locked = false := by rw [hg]; exact hlock
  have hd := deposit_success_effect e c id false q hq hgl
  have hw := withdrawal_success_effect e c id false q hq hgl
    (by rw [hg]; exact hav)
  refine ⟨⟨?_, ?_, rfl, ?_⟩, ⟨?_, ?_, ?_⟩⟩
  · rw [show Transaction.new c id (.Deposit q) = ⟨c, id, false, .Deposit q⟩ from rfl, hd]
  · rw [show Transaction.new c id (.Deposit q) = ⟨c, id, false, .Deposit q⟩ from rfl, hd]
    exact lookupA_insertA_self _ _ _
  · rw [show Transaction.new c id (.Deposit q) = ⟨c, id, false, .Deposit q⟩ from rfl, hd]
    rw [show Transaction.new c id .Dispute = ⟨c, id, false, .Dispute⟩ from rfl]
    rw [dispute_success_effect _ c id false ⟨c, id, false, .Deposit q⟩ q
      (lookupA_insertA_self _ _ _) rfl rfl rfl]
    rw [lookupA_insertA_self]
    have hgc : getClient
        (insertA (orCreate e.clients c) c
          { getClient e.clients c with
            available := (getClient e.clients c).available + q,
            total := (getClient e.clients c).total + q }) c =
        { getClient e.clients c with
          available := (getClient e.clients c).available + q,
          total := (getClient e.clients c).total + q } := by
      simp [getClient, lookupA_insertA_self]
    rw [hgc, hg]
    congr 1
    ext <;> simp <;> ring
  · rw [show Transaction.new c id (.Withdrawal q) = ⟨c, id, false, .Withdrawal q⟩ from rfl, hw]
  · rw [show Transaction.new c id (.Withdrawal q) = ⟨c, id, false, .Withdrawal q⟩ from rfl, hw]
    exact lookupA_insertA_self _ _ _
  · rw [show Transaction.new c id (.Withdrawal q) = ⟨c, id, false, .Withdrawal q⟩ from rfl, hw]
    rw [show Transaction.new c id .Dispute = ⟨c, id, false, .Dispute⟩ from rfl]
    rw [dispute_success_effect _ c id false ⟨c, id, false, .Withdrawal q⟩ (-q)
      (lookupA_insertA_self _ _ _) rfl rfl rfl]
    rw [lookupA_insertA_self]
    have hgc : getClient
        (insertA (orCreate e.clients c) c
          { getClient e.clients c with
            available := (getClient e.clients c).available - q,
            total := (getClient e.clients c).total - q }) c =
        { getClient e.clients c with
          available := (getClient e.clients c).available - q,
          total := (getClient e.clients c).total - q } := by
      simp [getClient, lookupA_insertA_self]
    rw [hgc, hg]
    congr 1
    ext <;> simp <;> ring

theorem duplicate_id_replaces_history_witness :
    (engine50.process_transaction (Transaction.new 1 1 (.Deposit 30))).2 = none ∧
    lookupA ((engine50.process_transaction
        (Transaction.new 1 1 (.Deposit 30))).1.transactions) 1 =
      some (Transaction.new 1 1 (.Deposit 30)) := by
  obtain ⟨⟨h1, h2, -, -⟩, -⟩ := duplicate_id_replaces_history engine50 1 1 30 acct50
    { client := 1, id := 1, is_disputed := false, type := .Deposit 50 }
    (by norm_num [engine50, lookupA]) rfl (by norm_num [engine50, lookupA])
    (by norm_num) (by norm_num [acct50])
  exact ⟨h1, h2⟩

end TxProc
